import Mathlib

/-!
Shallow embedding of `tensorflow/python/saved_model/builder_impl.py`
(the `SavedModelBuilder` class and its module-level helpers).

Python dicts are modelled as insertion-ordered association lists
(`List (String × β)`), assignment replacing in place.  The file system is
an explicit record of directories and files-with-contents; TensorFlow's
`file_io` collaborators (`file_exists`, `recursive_create_dir`, `copy`,
`filecmp`, `write_string_to_file`) are modelled over it.  The ambient
graph collections touched via `ops.add_to_collection` / `ops.get_collection`
are part of the threaded state.  Exceptions are modelled with `Except`,
each raise site mapped to the error-taxonomy name used by the
specification; a raise propagates the state as mutated up to that point,
so "no mutation before failure" facts are genuine theorems about the
order of operations, not artifacts of the encoding.
-/

namespace SMB

/-- Error taxonomy of the specification; each constructor corresponds to a
raise site in `builder_impl.py`. -/
inductive Err where
  | DirectoryAlreadyExists
  | AlreadySaved
  | VariablesNotSavedYet
  | MalformedTensorInfo
  | InvalidAssetReference
  | DuplicateLegacyInitOp
  | InvalidOpReference
  | PersistFailure
  deriving DecidableEq

/-- Association-list lookup with decidable string-key equality,
modelling Python dict lookup / `in`. -/
def lookupA {β : Type} : List (String × β) → String → Option β
  | [], _ => none
  | (k, v) :: rest, key => if k = key then some v else lookupA rest key

/-- Python dict assignment `m[k] = v`: replaces the value in place when the
key is present, appends otherwise (insertion order preserved). -/
def mapSet {β : Type} : List (String × β) → String → β → List (String × β)
  | [], k, v => [(k, v)]
  | (k0, v0) :: rest, k, v =>
      if k0 = k then (k, v) :: rest else (k0, v0) :: mapSet rest k v

/-- Python `key in dict`. -/
def mapContains {β : Type} (m : List (String × β)) (k : String) : Bool :=
  (lookupA m k).isSome

/-- The file system: existing directories and files with byte contents. -/
structure FS where
  dirs : List String
  files : List (String × String)
  deriving DecidableEq

/-- `file_io.file_exists`: true for an existing directory or file. -/
def fsExists (fs : FS) (p : String) : Bool :=
  fs.dirs.contains p || (lookupA fs.files p).isSome

/-- `file_io.recursive_create_dir`. -/
def fsCreateDir (fs : FS) (p : String) : FS :=
  { fs with dirs := p :: fs.dirs }

/-- `file_io.copy src dst`: the destination receives the source's bytes. -/
def fsCopy (fs : FS) (src dst : String) : FS :=
  { fs with files := mapSet fs.files dst ((lookupA fs.files src).getD "") }

/-- `file_io.write_string_to_file`. -/
def fsWrite (fs : FS) (p contents : String) : FS :=
  { fs with files := mapSet fs.files p contents }

/-- `file_io.filecmp`: byte-for-byte comparison of two files' contents. -/
def filecmp (fs : FS) (a b : String) : Bool :=
  decide (lookupA fs.files a = lookupA fs.files b)

/-- `os.path.join` on the forward-slash separator. -/
def pathJoin (dir name : String) : String := dir ++ "/" ++ name

/-- `os.path.basename`: the part after the last `/` (empty for a trailing
slash), computed by a structural fold over the characters. -/
def basename (p : String) : String :=
  ⟨p.data.foldl (fun acc c => if c = '/' then [] else acc ++ [c]) []⟩

/-- The `encoding` oneof of a `TensorInfo` proto (`name` or `coo_sparse`);
`WhichOneof "encoding"` is `Option`-valued. -/
inductive TIEncoding where
  | byName (s : String)
  | cooSparse
  deriving DecidableEq

/-- `types_pb2.DT_INVALID`, the default (invalid) element type. -/
def DT_INVALID : Nat := 0

/-- `TensorInfo` proto: the `encoding` oneof and the `dtype` field. -/
structure TensorInfo where
  encoding : Option TIEncoding
  dtype : Nat
  deriving DecidableEq

/-- `SignatureDef` proto: named `inputs` and `outputs` maps of
(possibly absent) `TensorInfo`s. -/
structure SignatureDef where
  inputs : List (String × Option TensorInfo)
  outputs : List (String × Option TensorInfo)
  deriving DecidableEq

/-- Python-level kind of an op reference, for the `isinstance` checks
against `ops.Operation` / `ops.Tensor`. -/
inductive OpKind where
  | operation
  | tensor
  | other
  deriving DecidableEq

/-- A reference to a graph operation or tensor. -/
structure OpRef where
  kind : OpKind
  name : String
  deriving DecidableEq

/-- An element of an assets collection, as consumed by
`_asset_path_from_tensor`: carries the data needed for its checks
(`isinstance ops.Tensor`, `op.type == "Const"`, string dtype, and the
`string_val` attribute list). -/
structure PathTensor where
  isTensor : Bool
  name : String
  opType : String
  dtypeIsString : Bool
  str_values : List String
  deriving DecidableEq

/-- The ambient graph collections touched by the builder:
`LEGACY_INIT_OP_KEY`, `MAIN_OP_KEY`, `TRAIN_OP_KEY` and `ASSETS_KEY`
(the latter holding `(filename, tensor name)` pairs packed from
`AssetFileDef` protos). -/
structure Collections where
  legacy_init_ops : List OpRef
  main_ops : List OpRef
  train_ops : List OpRef
  asset_files : List (String × String)
  deriving DecidableEq

/-- `MetaGraphDef` proto, restricted to the parts the builder touches:
tags, the signature-def map, the exported graph's collections snapshot and
the two pass-through export options. -/
structure MetaGraphDef where
  tags : List String
  signature_def : List (String × SignatureDef)
  graph_collections : Collections
  clear_devices : Bool
  strip_default_attrs : Bool
  deriving DecidableEq

/-- The `SavedModelBuilder` instance fields: the `SavedModel` proto
(schema version and meta-graph list), the export directory and the
`_has_saved_variables` flag. -/
structure BuilderData where
  meta_graphs : List MetaGraphDef
  schema_version : Nat
  export_dir : String
  has_saved_variables : Bool
  deriving DecidableEq

/-- The full threaded state: builder fields, ambient graph collections,
file system. -/
structure State where
  builder : BuilderData
  graph : Collections
  fs : FS
  deriving DecidableEq

def SAVED_MODEL_SCHEMA_VERSION : Nat := 1

def ASSETS_DIRECTORY : String := "assets"

def VARIABLES_DIRECTORY : String := "variables"

def VARIABLES_FILENAME : String := "variables"

/-- Contents written by the external `Saver.save` collaborator
(the checkpoint encoding itself is out of scope). -/
def CHECKPOINT_CONTENTS : String := "checkpoint-shards"

/-- `SavedModelBuilder._validate_tensor_info`: absent proto, unset
`encoding` oneof, or `DT_INVALID` dtype are rejected. -/
def validate_tensor_info : Option TensorInfo → Except Err Unit
  | none => .error .MalformedTensorInfo
  | some ti =>
      if ti.encoding.isNone then .error .MalformedTensorInfo
      else if ti.dtype = DT_INVALID then .error .MalformedTensorInfo
      else .ok ()

/-- Validation of every `TensorInfo` in one inputs/outputs map, in order. -/
def validateTensorInfoList : List (String × Option TensorInfo) → Except Err Unit
  | [] => .ok ()
  | (_, ti) :: rest =>
      match validate_tensor_info ti with
      | .error e => .error e
      | .ok _ => validateTensorInfoList rest

/-- The loop body of `_validate_signature_def_map`: each signature def's
inputs then outputs are validated, in map order. -/
def validateSigDefs : List (String × SignatureDef) → Except Err Unit
  | [] => .ok ()
  | (_, sd) :: rest =>
      match validateTensorInfoList sd.inputs with
      | .error e => .error e
      | .ok _ =>
          match validateTensorInfoList sd.outputs with
          | .error e => .error e
          | .ok _ => validateSigDefs rest

/-- `SavedModelBuilder._validate_signature_def_map` (a `None` map is
accepted). -/
def validate_signature_def_map : Option (List (String × SignatureDef)) → Except Err Unit
  | none => .ok ()
  | some m => validateSigDefs m

/-- `_asset_path_from_tensor`: the reference must be a constant scalar
string-typed tensor with exactly one string value. -/
def asset_path_from_tensor (t : PathTensor) : Except Err String :=
  if t.isTensor = false then .error .InvalidAssetReference
  else if t.opType ≠ "Const" then .error .InvalidAssetReference
  else if t.dtypeIsString = false then .error .InvalidAssetReference
  else
    match t.str_values with
    | [v] => .ok v
    | _ => .error .InvalidAssetReference

/-- The `while unique_filename in asset_filename_map` loop of
`_get_unique_asset_filename`, fuelled; each round proposes
`asset_filename ++ "_" ++ str i`. -/
def uniqueFilenameLoop (base : String) (m : List (String × String)) :
    String → Nat → Nat → String
  | u, _, 0 => u
  | u, i, fuel + 1 =>
      if mapContains m u then
        uniqueFilenameLoop base m (base ++ "_" ++ Nat.repr i) (i + 1) fuel
      else u

/-- `_get_unique_asset_filename`: starting from the bare basename, append
`_1`, `_2`, … until the candidate is not a key of the map.  `m.length + 1`
rounds of fuel always suffice (proved below), so this equals the source's
unbounded loop. -/
def get_unique_asset_filename (asset_filename : String)
    (m : List (String × String)) : String :=
  uniqueFilenameLoop asset_filename m asset_filename 1 (m.length + 1)

/-- `_get_asset_filename_to_add`: reuse the basename when unseen, when the
recorded path is textually identical, or when the contents compare equal;
generate a suffixed name when the contents differ. -/
def get_asset_filename_to_add (fs : FS) (asset_filepath : String)
    (asset_filename_map : List (String × String)) : String :=
  let asset_filename := basename asset_filepath
  match lookupA asset_filename_map asset_filename with
  | none => asset_filename
  | some other_asset_filepath =>
      if other_asset_filepath = asset_filepath then asset_filename
      else if filecmp fs asset_filepath other_asset_filepath = false then
        get_unique_asset_filename asset_filename asset_filename_map
      else asset_filename

/-- `_add_asset_to_collection`: pack an `AssetFileDef` proto
(filename + tensor name) and append it to the `ASSETS_KEY` collection. -/
def add_asset_to_collection (asset_filename : String) (t : PathTensor)
    (s : State) : State :=
  { s with graph :=
      { s.graph with
          asset_files := s.graph.asset_files ++ [(asset_filename, t.name)] } }

/-- The per-tensor loop of `_maybe_save_assets`: resolve the path (raising
on an invalid reference), choose the filename, record the collection entry,
then assign `asset_filename_map[filename] = path`. -/
def saveAssetsLoop : List PathTensor → List (String × String) → State →
    Except Err (List (String × String)) × State
  | [], m, s => (.ok m, s)
  | t :: rest, m, s =>
      match asset_path_from_tensor t with
      | .error e => (.error e, s)
      | .ok path =>
          if path = "" then (.error .InvalidAssetReference, s)
          else
            let fname := get_asset_filename_to_add s.fs path m
            saveAssetsLoop rest (mapSet m fname path)
              (add_asset_to_collection fname t s)

/-- `_maybe_save_assets`: build the (fresh, initially empty) basename →
source-path map for this call, recording one collection entry per tensor
reference. -/
def maybe_save_assets (assets_collection_to_add : Option (List PathTensor))
    (s : State) : Except Err (List (String × String)) × State :=
  match assets_collection_to_add with
  | none => (.ok [], s)
  | some ts => saveAssetsLoop ts [] s

/-- The copy loop of `_save_and_write_assets`: copy each mapped asset to
the assets directory unless the destination file already exists. -/
def copyAssets : List (String × String) → String → State → State
  | [], _, s => s
  | (b, src) :: rest, destDir, s =>
      let dst := pathJoin destDir b
      let s' := if fsExists s.fs dst then s
                else { s with fs := fsCopy s.fs src dst }
      copyAssets rest destDir s'

/-- `SavedModelBuilder._save_and_write_assets`: compute the per-call map,
return early when it is empty, otherwise create the assets directory if
needed and copy the not-yet-present files. -/
def save_and_write_assets (assets_collection_to_add : Option (List PathTensor))
    (s : State) : Except Err Unit × State :=
  match maybe_save_assets assets_collection_to_add s with
  | (.error e, s1) => (.error e, s1)
  | (.ok asset_filename_map, s1) =>
      if asset_filename_map.isEmpty then (.ok (), s1)
      else
        let destDir := pathJoin s1.builder.export_dir ASSETS_DIRECTORY
        let s2 := if fsExists s1.fs destDir then s1
                  else { s1 with fs := fsCreateDir s1.fs destDir }
        (.ok (), copyAssets asset_filename_map destDir s2)

/-- `SavedModelBuilder._maybe_add_legacy_init_op`: type check first, then
the duplicate check against the `LEGACY_INIT_OP_KEY` collection, then
record. -/
def maybe_add_legacy_init_op (legacy_init_op : Option OpRef) (s : State) :
    Except Err Unit × State :=
  match legacy_init_op with
  | none => (.ok (), s)
  | some op =>
      if op.kind ≠ OpKind.operation then (.error .InvalidOpReference, s)
      else if s.graph.legacy_init_ops ≠ [] then (.error .DuplicateLegacyInitOp, s)
      else (.ok (),
        { s with graph :=
            { s.graph with legacy_init_ops := s.graph.legacy_init_ops ++ [op] } })

/-- `SavedModelBuilder._add_main_op`. -/
def add_main_op (main_op : Option OpRef) (s : State) : Except Err Unit × State :=
  match main_op with
  | none => (.ok (), s)
  | some op =>
      if op.kind ≠ OpKind.operation then (.error .InvalidOpReference, s)
      else (.ok (),
        { s with graph :=
            { s.graph with main_ops := s.graph.main_ops ++ [op] } })

/-- `SavedModelBuilder._add_train_op`: accepts a `Tensor` or an
`Operation`. -/
def add_train_op (train_op : Option OpRef) (s : State) : Except Err Unit × State :=
  match train_op with
  | none => (.ok (), s)
  | some op =>
      if op.kind ≠ OpKind.tensor ∧ op.kind ≠ OpKind.operation then
        (.error .InvalidOpReference, s)
      else (.ok (),
        { s with graph :=
            { s.graph with train_ops := s.graph.train_ops ++ [op] } })

/-- `SavedModelBuilder._add_collections`: assets first, then exactly one of
the main op (taking precedence) or the legacy init op, then the train op. -/
def add_collections (assets_collection : Option (List PathTensor))
    (legacy_init_op main_op train_op : Option OpRef) (s : State) :
    Except Err Unit × State :=
  match save_and_write_assets assets_collection s with
  | (.error e, s1) => (.error e, s1)
  | (.ok _, s1) =>
      match (if main_op.isNone then maybe_add_legacy_init_op legacy_init_op s1
             else add_main_op main_op s1) with
      | (.error e, s2) => (.error e, s2)
      | (.ok _, s2) => add_train_op train_op s2

/-- `Saver.export_meta_graph` (external collaborator): exports the current
graph state — in particular the ambient collections — into a fresh
`MetaGraphDef`, passing the two options through. -/
def export_meta_graph (s : State) (clear_devices strip_default_attrs : Bool) :
    MetaGraphDef :=
  { tags := []
    signature_def := []
    graph_collections := s.graph
    clear_devices := clear_devices
    strip_default_attrs := strip_default_attrs }

/-- `SavedModelBuilder._tag_and_add_meta_graph`: append the tags, copy the
signature defs in (overwriting same-named entries of this variant), then
append a copy of the meta graph def to the `SavedModel` proto. -/
def tag_and_add_meta_graph (meta_graph_def : MetaGraphDef) (tags : List String)
    (signature_def_map : Option (List (String × SignatureDef))) (s : State) :
    State :=
  let mgd1 := { meta_graph_def with tags := meta_graph_def.tags ++ tags }
  let mgd2 :=
    match signature_def_map with
    | none => mgd1
    | some m =>
        { mgd1 with
            signature_def :=
              m.foldl (fun acc kv => mapSet acc kv.1 kv.2) mgd1.signature_def }
  { s with builder :=
      { s.builder with meta_graphs := s.builder.meta_graphs ++ [mgd2] } }

/-- `SavedModelBuilder.add_meta_graph`: the variants-only entry point. -/
def add_meta_graph (tags : List String)
    (signature_def_map : Option (List (String × SignatureDef)))
    (assets_collection : Option (List PathTensor))
    (legacy_init_op : Option OpRef) (clear_devices : Bool)
    (main_op : Option OpRef) (strip_default_attrs : Bool) (s : State) :
    Except Err Unit × State :=
  if s.builder.has_saved_variables = false then (.error .VariablesNotSavedYet, s)
  else
    match validate_signature_def_map signature_def_map with
    | .error e => (.error e, s)
    | .ok _ =>
        match add_collections assets_collection legacy_init_op main_op none s with
        | (.error e, s1) => (.error e, s1)
        | (.ok _, s1) =>
            let mgd := export_meta_graph s1 clear_devices strip_default_attrs
            (.ok (), tag_and_add_meta_graph mgd tags signature_def_map s1)

/-- `SavedModelBuilder.add_meta_graph_and_variables`: the
parameters-carrying entry point.  `Saver.save` (the external parameter
store) writes the sharded checkpoint under `variables/variables`. -/
def add_meta_graph_and_variables (tags : List String)
    (signature_def_map : Option (List (String × SignatureDef)))
    (assets_collection : Option (List PathTensor))
    (legacy_init_op : Option OpRef) (clear_devices : Bool)
    (main_op : Option OpRef) (strip_default_attrs : Bool) (s : State) :
    Except Err Unit × State :=
  if s.builder.has_saved_variables = true then (.error .AlreadySaved, s)
  else
    match validate_signature_def_map signature_def_map with
    | .error e => (.error e, s)
    | .ok _ =>
        match add_collections assets_collection legacy_init_op main_op none s with
        | (.error e, s1) => (.error e, s1)
        | (.ok _, s1) =>
            let variables_dir := pathJoin s1.builder.export_dir VARIABLES_DIRECTORY
            let s2 := if fsExists s1.fs variables_dir then s1
                      else { s1 with fs := fsCreateDir s1.fs variables_dir }
            let variables_path := pathJoin variables_dir VARIABLES_FILENAME
            let s3 := { s2 with fs := fsWrite s2.fs variables_path CHECKPOINT_CONTENTS }
            let mgd := export_meta_graph s3 clear_devices strip_default_attrs
            let s4 := tag_and_add_meta_graph mgd tags signature_def_map s3
            (.ok (),
              { s4 with builder := { s4.builder with has_saved_variables := true } })

/-- `SavedModelBuilder.__init__`: refuse an existing export path before
touching anything, otherwise create the directory and start with an empty
proto and an unset `_has_saved_variables` flag. -/
def builder_init (export_dir : String) (g : Collections) (fs : FS) :
    Except Err State × FS :=
  if fsExists fs export_dir then (.error .DirectoryAlreadyExists, fs)
  else
    let fs1 := fsCreateDir fs export_dir
    (.ok
      { builder :=
          { meta_graphs := []
            schema_version := SAVED_MODEL_SCHEMA_VERSION
            export_dir := export_dir
            has_saved_variables := false }
        graph := g
        fs := fs1 }, fs1)

/-! ### Auxiliary definitions for the analysis -/

/-- Decimal digit list of a natural number, most significant first;
reference form of the digit computation underlying `Nat.repr`. -/
def decimalDigits (n : Nat) : List Char :=
  if _h : n < 10 then [Nat.digitChar n]
  else decimalDigits (n / 10) ++ [Nat.digitChar (n % 10)]
termination_by n
decreasing_by exact Nat.div_lt_self (by omega) (by omega)

/-- Value of a decimal digit list, most significant first. -/
def digitsVal (l : List Char) : Nat :=
  l.foldl (fun a c => a * 10 + (c.toNat - 48)) 0

/-- The candidate tried in round `i` of the unique-filename loop:
the bare basename first, then `base_1`, `base_2`, …. -/
def cand (base : String) : Nat → String
  | 0 => base
  | i + 1 => base ++ "_" ++ Nat.repr (i + 1)

/-- A `TensorInfo` map entry the specification calls malformed: the proto
is absent, its `encoding` oneof is unset, or its dtype is the invalid
sentinel. -/
def BadTensorInfo : Option TensorInfo → Prop
  | none => True
  | some t => t.encoding = none ∨ t.dtype = DT_INVALID

/-- A signature-def map containing at least one malformed `TensorInfo`
among its entries' inputs or outputs. -/
def HasBadTensorInfo (m : List (String × SignatureDef)) : Prop :=
  ∃ sd ∈ m, (∃ p ∈ sd.2.inputs, BadTensorInfo p.2) ∨
    (∃ p ∈ sd.2.outputs, BadTensorInfo p.2)

/-! ### Concrete example data (used in witnesses and counterexamples) -/

/-- Files `/x/a` and `/z/a` share contents; `/y/a` differs; all three share
the basename `a`. -/
def exFS : FS := ⟨[], [("/x/a", "hello"), ("/y/a", "world"), ("/z/a", "hello")]⟩

def exGraph : Collections := ⟨[], [], [], []⟩

/-- A freshly constructed builder targeting `/export` over `exFS`. -/
def exState : State :=
  { builder :=
      { meta_graphs := []
        schema_version := SAVED_MODEL_SCHEMA_VERSION
        export_dir := "/export"
        has_saved_variables := false }
    graph := exGraph
    fs := fsCreateDir exFS "/export" }

def exTensorX : PathTensor := ⟨true, "tensor-x", "Const", true, ["/x/a"]⟩

def exTensorY : PathTensor := ⟨true, "tensor-y", "Const", true, ["/y/a"]⟩

def exTensorZ : PathTensor := ⟨true, "tensor-z", "Const", true, ["/z/a"]⟩

/-- `exState` after a successful parameters-carrying add registering
`/x/a`. -/
def exState1 : State :=
  (add_meta_graph_and_variables ["serve"] none (some [exTensorX]) none false
    none false exState).2

/-- A signature map whose single entry has an absent input `TensorInfo`. -/
def exBadSigs : List (String × SignatureDef) := [("sig", ⟨[("x", none)], []⟩)]

/-- A state whose graph already holds a legacy init op (and whose builder
has saved variables), for exercising the duplicate-init-op path. -/
def exStateL : State :=
  { exState with
      builder := { exState.builder with has_saved_variables := true }
      graph := { exGraph with legacy_init_ops := [⟨OpKind.operation, "old-init"⟩] } }

/-! ## Theorems -/

/-! ### `Nat.repr`: injectivity -/

theorem digitChar_sub_48 : ∀ n, n < 10 → (Nat.digitChar n).toNat - 48 = n := by
  decide

theorem toDigitsCore_eq_decimalDigits :
    ∀ (fuel n : Nat) (ds : List Char), n < fuel →
      Nat.toDigitsCore 10 fuel n ds = decimalDigits n ++ ds := by
  intro fuel
  induction fuel with
  | zero => intro n ds h; omega
  | succ fuel ih =>
      intro n ds h
      by_cases h10 : n / 10 = 0
      · have hn : n < 10 := by omega
        simp only [Nat.toDigitsCore, h10, if_true]
        rw [decimalDigits]
        simp [hn, Nat.mod_eq_of_lt hn]
      · have hn : ¬ n < 10 := by omega
        simp only [Nat.toDigitsCore, h10, if_false]
        rw [ih (n / 10) _ (by omega)]
        conv_rhs => rw [decimalDigits]
        simp [hn, List.append_assoc]

theorem repr_eq_decimalDigits (n : Nat) :
    Nat.repr n = (decimalDigits n).asString := by
  show (Nat.toDigits 10 n).asString = _
  rw [Nat.toDigits, toDigitsCore_eq_decimalDigits (n + 1) n [] (Nat.lt_succ_self n),
    List.append_nil]

theorem digitsVal_append_singleton (l : List Char) (c : Char) :
    digitsVal (l ++ [c]) = digitsVal l * 10 + (c.toNat - 48) := by
  simp [digitsVal, List.foldl_append]

theorem digitsVal_decimalDigits (n : Nat) : digitsVal (decimalDigits n) = n := by
  induction n using Nat.strong_induction_on with
  | _ n ih =>
      by_cases h : n < 10
      · rw [decimalDigits]
        simp [h, digitsVal, digitChar_sub_48 n h]
      · rw [decimalDigits]
        simp only [h, dif_neg, not_false_iff]
        rw [digitsVal_append_singleton,
          ih (n / 10) (Nat.div_lt_self (by omega) (by omega)),
          digitChar_sub_48 (n % 10) (Nat.mod_lt n (by omega))]
        omega

theorem natRepr_injective : ∀ m n : Nat, Nat.repr m = Nat.repr n → m = n := by
  intro m n h
  rw [repr_eq_decimalDigits, repr_eq_decimalDigits] at h
  have h2 : decimalDigits m = decimalDigits n := by
    have := congrArg String.data h
    simpa [List.asString] using this
  have := congrArg digitsVal h2
  rwa [digitsVal_decimalDigits, digitsVal_decimalDigits] at this

theorem decimalDigits_ne_nil (n : Nat) : decimalDigits n ≠ [] := by
  rw [decimalDigits]
  by_cases h : n < 10 <;> simp [h]

theorem natRepr_length_pos (n : Nat) : 0 < (Nat.repr n).length := by
  rw [repr_eq_decimalDigits]
  have := decimalDigits_ne_nil n
  simp [List.asString, String.length]
  exact List.length_pos.mpr this

/-! ### Candidate names: injectivity -/

theorem cand_injective (base : String) : Function.Injective (cand base) := by
  intro i j hij
  match i, j with
  | 0, 0 => rfl
  | 0, j + 1 =>
      exfalso
      have := congrArg String.length hij
      simp only [cand, String.length_append] at this
      have h1 : 0 < (Nat.repr (j + 1)).length := natRepr_length_pos _
      have h2 : (("_" : String)).length = 1 := rfl
      omega
  | i + 1, 0 =>
      exfalso
      have := congrArg String.length hij
      simp only [cand, String.length_append] at this
      have h1 : 0 < (Nat.repr (i + 1)).length := natRepr_length_pos _
      have h2 : (("_" : String)).length = 1 := rfl
      omega
  | i + 1, j + 1 =>
      have hd := congrArg String.data hij
      simp only [cand, String.data_append] at hd
      have hd2 : (Nat.repr (i + 1)).data = (Nat.repr (j + 1)).data :=
        List.append_cancel_left hd
      have := natRepr_injective _ _ (String.ext hd2)
      omega

/-! ### Association-list (dict) lemmas -/

theorem lookupA_isSome_iff_mem {β : Type} (m : List (String × β)) (k : String) :
    (lookupA m k).isSome = true ↔ k ∈ m.map Prod.fst := by
  induction m with
  | nil => simp [lookupA]
  | cons hd tl ih =>
      obtain ⟨k0, v0⟩ := hd
      by_cases h : k0 = k
      · subst h
        simp [lookupA]
      · simp only [lookupA, if_neg h, List.map_cons, List.mem_cons]
        rw [ih]
        constructor
        · intro hm; exact Or.inr hm
        · intro hm
          cases hm with
          | inl he => exact absurd he.symm h
          | inr hm => exact hm

theorem mapContains_true_iff {β : Type} (m : List (String × β)) (k : String) :
    mapContains m k = true ↔ k ∈ m.map Prod.fst := by
  rw [mapContains]
  exact lookupA_isSome_iff_mem m k

theorem mapContains_false_iff {β : Type} (m : List (String × β)) (k : String) :
    mapContains m k = false ↔ ¬ k ∈ m.map Prod.fst := by
  rw [← mapContains_true_iff]
  cases mapContains m k <;> simp

theorem lookupA_mapSet_self {β : Type} (m : List (String × β)) (k : String) (v : β) :
    lookupA (mapSet m k v) k = some v := by
  induction m with
  | nil => simp [mapSet, lookupA]
  | cons hd tl ih =>
      obtain ⟨k0, v0⟩ := hd
      by_cases h : k0 = k
      · subst h
        simp [mapSet, lookupA]
      · simp [mapSet, lookupA, h, ih]

theorem lookupA_mapSet_ne {β : Type} (m : List (String × β)) (k q : String) (v : β)
    (h : q ≠ k) : lookupA (mapSet m k v) q = lookupA m q := by
  induction m with
  | nil => simp [mapSet, lookupA, Ne.symm h]
  | cons hd tl ih =>
      obtain ⟨k0, v0⟩ := hd
      by_cases h0 : k0 = k
      · subst h0
        simp [mapSet, lookupA, Ne.symm h]
      · by_cases hq : k0 = q
        · subst hq
          simp [mapSet, lookupA, h0]
        · simp [mapSet, lookupA, h0, hq, ih]

theorem mapContains_mapSet {β : Type} (m : List (String × β)) (k q : String) (v : β)
    (h : mapContains m q = true) : mapContains (mapSet m k v) q = true := by
  by_cases hq : q = k
  · subst hq
    simp [mapContains, lookupA_mapSet_self]
  · rw [mapContains, lookupA_mapSet_ne m k q v hq]
    exact h

/-! ### Freshness of the unique-filename search -/

theorem exists_fresh_cand (base : String) (m : List (String × String)) :
    ∃ i, i ≤ m.length ∧ ¬ cand base i ∈ m.map Prod.fst := by
  by_contra hc
  push_neg at hc
  have hsub : ∀ x ∈ (List.range (m.length + 1)).map (cand base), x ∈ m.map Prod.fst := by
    intro x hx
    simp only [List.mem_map, List.mem_range] at hx
    obtain ⟨i, hi, rfl⟩ := hx
    exact hc i (by omega)
  have hnd : ((List.range (m.length + 1)).map (cand base)).Nodup :=
    (List.nodup_range _).map (cand_injective base)
  have h1 : ((List.range (m.length + 1)).map (cand base)).toFinset.card = m.length + 1 := by
    rw [List.toFinset_card_of_nodup hnd]
    simp
  have h2 : ((List.range (m.length + 1)).map (cand base)).toFinset ⊆
      (m.map Prod.fst).toFinset := by
    intro x hx
    rw [List.mem_toFinset] at hx ⊢
    exact hsub x hx
  have h3 := Finset.card_le_card h2
  have h4 : (m.map Prod.fst).toFinset.card ≤ m.length := by
    calc (m.map Prod.fst).toFinset.card ≤ (m.map Prod.fst).length :=
          List.toFinset_card_le _
      _ = m.length := by simp
  omega

theorem uniqueFilenameLoop_fresh (base : String) (m : List (String × String)) :
    ∀ (fuel j : Nat),
      (∃ i, j ≤ i ∧ i < j + fuel ∧ mapContains m (cand base i) = false) →
      mapContains m (uniqueFilenameLoop base m (cand base j) (j + 1) fuel) = false := by
  intro fuel
  induction fuel with
  | zero =>
      intro j h
      obtain ⟨i, h1, h2, _⟩ := h
      omega
  | succ fuel ih =>
      intro j h
      obtain ⟨i, h1, h2, h3⟩ := h
      cases hj : mapContains m (cand base j) with
      | false =>
          simp only [uniqueFilenameLoop, hj, if_false, Bool.false_eq_true]
      | true =>
          have hij : i ≠ j := by
            intro he
            rw [he, hj] at h3
            cases h3
          simp only [uniqueFilenameLoop, hj, if_true]
          have hstep : (base ++ "_" ++ Nat.repr (j + 1)) = cand base (j + 1) := rfl
          rw [hstep]
          exact ih (j + 1) ⟨i, by omega, by omega, h3⟩

theorem uniqueFilenameLoop_shape (base : String) (m : List (String × String)) :
    ∀ (fuel j : Nat), ∃ k, j ≤ k ∧
      uniqueFilenameLoop base m (cand base j) (j + 1) fuel = cand base k ∧
      ∀ l, j ≤ l → l < k → mapContains m (cand base l) = true := by
  intro fuel
  induction fuel with
  | zero =>
      intro j
      exact ⟨j, Nat.le_refl j, rfl, fun l h1 h2 => by omega⟩
  | succ fuel ih =>
      intro j
      cases hj : mapContains m (cand base j) with
      | false =>
          refine ⟨j, Nat.le_refl j, ?_, fun l h1 h2 => by omega⟩
          simp only [uniqueFilenameLoop, hj, if_false, Bool.false_eq_true]
      | true =>
          obtain ⟨k, hk1, hk2, hk3⟩ := ih (j + 1)
          refine ⟨k, by omega, ?_, ?_⟩
          · simp only [uniqueFilenameLoop, hj, if_true]
            have hstep : (base ++ "_" ++ Nat.repr (j + 1)) = cand base (j + 1) := rfl
            rw [hstep]
            exact hk2
          · intro l h1 h2
            by_cases hl : l = j
            · rw [hl]; exact hj
            · exact hk3 l (by omega) h2

theorem get_unique_asset_filename_fresh (base : String) (m : List (String × String)) :
    mapContains m (get_unique_asset_filename base m) = false := by
  obtain ⟨i, hi, hmem⟩ := exists_fresh_cand base m
  have h3 : mapContains m (cand base i) = false := (mapContains_false_iff m _).mpr hmem
  have h0 : get_unique_asset_filename base m =
      uniqueFilenameLoop base m (cand base 0) (0 + 1) (m.length + 1) := rfl
  rw [h0]
  exact uniqueFilenameLoop_fresh base m (m.length + 1) 0 ⟨i, by omega, by omega, h3⟩

theorem get_unique_asset_filename_shape (base : String) (m : List (String × String)) :
    ∃ k, get_unique_asset_filename base m = cand base k ∧
      ∀ l, l < k → mapContains m (cand base l) = true := by
  obtain ⟨k, _, hk2, hk3⟩ := uniqueFilenameLoop_shape base m (m.length + 1) 0
  have h0 : get_unique_asset_filename base m =
      uniqueFilenameLoop base m (cand base 0) (0 + 1) (m.length + 1) := rfl
  exact ⟨k, h0.trans hk2, fun l hl => hk3 l (Nat.zero_le l) hl⟩

/-! ### Signature validation lemmas -/

theorem validate_tensor_info_cases (ti : Option TensorInfo) :
    validate_tensor_info ti = .ok () ∨
      validate_tensor_info ti = .error .MalformedTensorInfo := by
  match ti with
  | none => exact Or.inr rfl
  | some t =>
      simp only [validate_tensor_info]
      by_cases he : t.encoding.isNone <;> by_cases hd : t.dtype = DT_INVALID <;>
        simp [he, hd]

theorem validate_tensor_info_of_bad (ti : Option TensorInfo) (h : BadTensorInfo ti) :
    validate_tensor_info ti = .error .MalformedTensorInfo := by
  match ti with
  | none => rfl
  | some t =>
      have h2 : t.encoding = none ∨ t.dtype = DT_INVALID := h
      simp only [validate_tensor_info]
      by_cases he : t.encoding.isNone
      · simp [he]
      · have hd : t.dtype = DT_INVALID := by
          rcases h2 with h2 | h2
          · exact absurd (by simp [h2]) he
          · exact h2
        simp [he, hd]

theorem validateTensorInfoList_cases (l : List (String × Option TensorInfo)) :
    validateTensorInfoList l = .ok () ∨
      validateTensorInfoList l = .error .MalformedTensorInfo := by
  induction l with
  | nil => exact Or.inl rfl
  | cons hd tl ih =>
      obtain ⟨k, ti⟩ := hd
      simp only [validateTensorInfoList]
      rcases validate_tensor_info_cases ti with hv | hv <;> rw [hv]
      · exact ih
      · exact Or.inr rfl

theorem validateTensorInfoList_of_bad (l : List (String × Option TensorInfo))
    (h : ∃ p ∈ l, BadTensorInfo p.2) :
    validateTensorInfoList l = .error .MalformedTensorInfo := by
  induction l with
  | nil =>
      obtain ⟨p, hp, _⟩ := h
      cases hp
  | cons hd tl ih =>
      obtain ⟨k, ti⟩ := hd
      obtain ⟨p, hp, hbad⟩ := h
      simp only [validateTensorInfoList]
      cases hp with
      | head => rw [validate_tensor_info_of_bad _ hbad]
      | tail _ hmem =>
          rcases validate_tensor_info_cases ti with hv | hv <;> rw [hv]
          exact ih ⟨p, hmem, hbad⟩

theorem validateSigDefs_cases (m : List (String × SignatureDef)) :
    validateSigDefs m = .ok () ∨
      validateSigDefs m = .error .MalformedTensorInfo := by
  induction m with
  | nil => exact Or.inl rfl
  | cons hd tl ih =>
      obtain ⟨k, sd⟩ := hd
      simp only [validateSigDefs]
      rcases validateTensorInfoList_cases sd.inputs with hv | hv <;> rw [hv]
      · rcases validateTensorInfoList_cases sd.outputs with hw | hw <;> rw [hw]
        · exact ih
        · exact Or.inr rfl
      · exact Or.inr rfl

theorem validateSigDefs_of_bad (m : List (String × SignatureDef))
    (h : HasBadTensorInfo m) :
    validateSigDefs m = .error .MalformedTensorInfo := by
  induction m with
  | nil =>
      obtain ⟨sd, hsd, _⟩ := h
      cases hsd
  | cons hd tl ih =>
      obtain ⟨k, sd⟩ := hd
      obtain ⟨p, hp, hbad⟩ := h
      simp only [validateSigDefs]
      cases hp with
      | head =>
          cases hbad with
          | inl hin => rw [validateTensorInfoList_of_bad _ hin]
          | inr hout =>
              rcases validateTensorInfoList_cases sd.inputs with hv | hv <;> rw [hv]
              · rw [validateTensorInfoList_of_bad _ hout]
      | tail _ hmem =>
          rcases validateTensorInfoList_cases sd.inputs with hv | hv <;> rw [hv]
          rcases validateTensorInfoList_cases sd.outputs with hw | hw <;> rw [hw]
          exact ih ⟨p, hmem, hbad⟩

/-! ### Frame and error-classification lemmas for the add phases -/

theorem asset_path_from_tensor_error (t : PathTensor) (e : Err)
    (h : asset_path_from_tensor t = .error e) : e = Err.InvalidAssetReference := by
  unfold asset_path_from_tensor at h
  repeat' split at h
  all_goals simp_all

theorem saveAssetsLoop_frame (ts : List PathTensor) :
    ∀ (m : List (String × String)) (s : State)
      (r : Except Err (List (String × String))) (s2 : State),
      saveAssetsLoop ts m s = (r, s2) →
      s2.builder = s.builder ∧ s2.fs = s.fs ∧
      s2.graph.legacy_init_ops = s.graph.legacy_init_ops ∧
      s2.graph.main_ops = s.graph.main_ops ∧
      s2.graph.train_ops = s.graph.train_ops ∧
      (∀ e, r = .error e → e = Err.InvalidAssetReference) := by
  induction ts with
  | nil =>
      intro m s r s2 h
      simp only [saveAssetsLoop] at h
      injection h with h1 h2
      subst h1; subst h2
      refine ⟨rfl, rfl, rfl, rfl, rfl, fun e he => ?_⟩
      cases he
  | cons t rest ih =>
      intro m s r s2 h
      simp only [saveAssetsLoop] at h
      split at h
      next e0 heq =>
        injection h with h1 h2
        subst h1; subst h2
        refine ⟨rfl, rfl, rfl, rfl, rfl, fun e he => ?_⟩
        injection he with he2
        exact he2 ▸ asset_path_from_tensor_error t e0 heq
      next path heq =>
        split at h
        next hp =>
          injection h with h1 h2
          subst h1; subst h2
          exact ⟨rfl, rfl, rfl, rfl, rfl, fun e he => by
            injection he with he2; exact he2.symm⟩
        next hp =>
          exact ih (mapSet m (get_asset_filename_to_add s.fs path m) path)
            (add_asset_to_collection (get_asset_filename_to_add s.fs path m) t s) r s2 h

theorem saveAssetsLoop_records (ts : List PathTensor) :
    ∀ (m : List (String × String)) (s : State)
      (m2 : List (String × String)) (s2 : State),
      saveAssetsLoop ts m s = (.ok m2, s2) →
      ∃ news, s2.graph.asset_files = s.graph.asset_files ++ news ∧
        news.map Prod.snd = ts.map PathTensor.name := by
  induction ts with
  | nil =>
      intro m s m2 s2 h
      simp only [saveAssetsLoop] at h
      injection h with h1 h2
      subst h2
      exact ⟨[], by simp, by simp⟩
  | cons t rest ih =>
      intro m s m2 s2 h
      simp only [saveAssetsLoop] at h
      split at h
      next e0 heq =>
        injection h with h1 h2
        cases h1
      next path heq =>
        split at h
        next hp =>
          injection h with h1 h2
          cases h1
        next hp =>
          obtain ⟨news, hn1, hn2⟩ := ih _ _ _ _ h
          refine ⟨(get_asset_filename_to_add s.fs path m, t.name) :: news, ?_, ?_⟩
          · rw [hn1]
            show s.graph.asset_files ++ [(get_asset_filename_to_add s.fs path m, t.name)]
                ++ news = _
            simp
          · simp [hn2]

theorem saveAssetsLoop_mono (ts : List PathTensor) :
    ∀ (m : List (String × String)) (s : State)
      (m2 : List (String × String)) (s2 : State),
      saveAssetsLoop ts m s = (.ok m2, s2) →
      ∀ k, mapContains m k = true → mapContains m2 k = true := by
  induction ts with
  | nil =>
      intro m s m2 s2 h k hk
      simp only [saveAssetsLoop] at h
      injection h with h1 h2
      injection h1 with h1
      subst h1
      exact hk
  | cons t rest ih =>
      intro m s m2 s2 h k hk
      simp only [saveAssetsLoop] at h
      split at h
      next e0 heq =>
        injection h with h1 h2
        cases h1
      next path heq =>
        split at h
        next hp =>
          injection h with h1 h2
          cases h1
        next hp =>
          exact ih _ _ _ _ h k (mapContains_mapSet m _ k path hk)

theorem maybe_save_assets_frame (a : Option (List PathTensor)) (s : State)
    (r : Except Err (List (String × String))) (s2 : State)
    (h : maybe_save_assets a s = (r, s2)) :
    s2.builder = s.builder ∧ s2.fs = s.fs ∧
    s2.graph.legacy_init_ops = s.graph.legacy_init_ops ∧
    s2.graph.main_ops = s.graph.main_ops ∧
    s2.graph.train_ops = s.graph.train_ops ∧
    (∀ e, r = .error e → e = Err.InvalidAssetReference) := by
  cases a with
  | none =>
      simp only [maybe_save_assets] at h
      injection h with h1 h2
      subst h1; subst h2
      refine ⟨rfl, rfl, rfl, rfl, rfl, fun e he => ?_⟩
      cases he
  | some ts =>
      simp only [maybe_save_assets] at h
      exact saveAssetsLoop_frame ts [] s r s2 h

theorem copyAssets_builder (l : List (String × String)) :
    ∀ (d : String) (s : State), (copyAssets l d s).builder = s.builder := by
  induction l with
  | nil => intro d s; rfl
  | cons hd rest ih =>
      intro d s
      obtain ⟨b, src⟩ := hd
      simp only [copyAssets]
      by_cases hex : fsExists s.fs (pathJoin d b) = true
      · rw [if_pos hex]
        exact ih d s
      · rw [if_neg hex]
        exact ih d _

theorem copyAssets_graph (l : List (String × String)) :
    ∀ (d : String) (s : State), (copyAssets l d s).graph = s.graph := by
  induction l with
  | nil => intro d s; rfl
  | cons hd rest ih =>
      intro d s
      obtain ⟨b, src⟩ := hd
      simp only [copyAssets]
      by_cases hex : fsExists s.fs (pathJoin d b) = true
      · rw [if_pos hex]
        exact ih d s
      · rw [if_neg hex]
        exact ih d _

theorem save_and_write_assets_frame (a : Option (List PathTensor)) (s : State)
    (r : Except Err Unit) (s2 : State)
    (h : save_and_write_assets a s = (r, s2)) :
    s2.builder = s.builder ∧
    s2.graph.legacy_init_ops = s.graph.legacy_init_ops ∧
    s2.graph.main_ops = s.graph.main_ops ∧
    s2.graph.train_ops = s.graph.train_ops ∧
    (∀ e, r = .error e → e = Err.InvalidAssetReference) := by
  unfold save_and_write_assets at h
  split at h
  next e1 s1 heq =>
    obtain ⟨hb, hf, hl, hm, ht, he⟩ := maybe_save_assets_frame a s _ s1 heq
    injection h with h1 h2
    subst h1; subst h2
    exact ⟨hb, hl, hm, ht, fun e hee => by
      injection hee with he2; exact he2 ▸ he e1 rfl⟩
  next m s1 heq =>
    obtain ⟨hb, hf, hl, hm, ht, he⟩ := maybe_save_assets_frame a s _ s1 heq
    split at h
    next hemp =>
      injection h with h1 h2
      subst h1; subst h2
      exact ⟨hb, hl, hm, ht, fun e hee => by cases hee⟩
    next hemp =>
      injection h with h1 h2
      subst h1
      refine ⟨?_, ?_, ?_, ?_, fun e hee => by cases hee⟩
      · rw [← h2, copyAssets_builder]
        split
        · exact hb
        · exact hb
      · rw [← h2, copyAssets_graph]
        split
        · exact hl
        · exact hl
      · rw [← h2, copyAssets_graph]
        split
        · exact hm
        · exact hm
      · rw [← h2, copyAssets_graph]
        split
        · exact ht
        · exact ht

theorem maybe_add_legacy_init_op_props (o : Option OpRef) (s : State)
    (r : Except Err Unit) (s2 : State)
    (h : maybe_add_legacy_init_op o s = (r, s2)) :
    s2.builder = s.builder ∧ s2.fs = s.fs ∧
    s2.graph.main_ops = s.graph.main_ops ∧
    s2.graph.train_ops = s.graph.train_ops ∧
    s2.graph.asset_files = s.graph.asset_files ∧
    (∀ e, r = .error e →
      (e = Err.InvalidOpReference ∨ e = Err.DuplicateLegacyInitOp) ∧ s2 = s) ∧
    (∀ op, o = some op → r = .ok () →
      s2.graph.legacy_init_ops = s.graph.legacy_init_ops ++ [op]) ∧
    (o = none → s2 = s) := by
  cases o with
  | none =>
      simp only [maybe_add_legacy_init_op] at h
      injection h with h1 h2
      subst h1; subst h2
      refine ⟨rfl, rfl, rfl, rfl, rfl, ?_, ?_, ?_⟩
      · intro e he; injection he
      · intro op hop; injection hop
      · intro _; rfl
  | some op =>
      simp only [maybe_add_legacy_init_op] at h
      by_cases hk : op.kind ≠ OpKind.operation
      · rw [if_pos hk] at h
        injection h with h1 h2
        subst h1; subst h2
        refine ⟨rfl, rfl, rfl, rfl, rfl, ?_, ?_, ?_⟩
        · intro e he
          injection he with he2
          exact ⟨Or.inl he2.symm, rfl⟩
        · intro op2 hop hr; injection hr
        · intro hn; injection hn
      · rw [if_neg hk] at h
        by_cases hl : s.graph.legacy_init_ops ≠ []
        · rw [if_pos hl] at h
          injection h with h1 h2
          subst h1; subst h2
          refine ⟨rfl, rfl, rfl, rfl, rfl, ?_, ?_, ?_⟩
          · intro e he
            injection he with he2
            exact ⟨Or.inr he2.symm, rfl⟩
          · intro op2 hop hr; injection hr
          · intro hn; injection hn
        · rw [if_neg hl] at h
          injection h with h1 h2
          subst h1; subst h2
          refine ⟨rfl, rfl, rfl, rfl, rfl, ?_, ?_, ?_⟩
          · intro e he; injection he
          · intro op2 hop hr
            injection hop with hop2
            subst hop2
            rfl
          · intro hn; injection hn

theorem add_main_op_props (o : Option OpRef) (s : State)
    (r : Except Err Unit) (s2 : State)
    (h : add_main_op o s = (r, s2)) :
    s2.builder = s.builder ∧ s2.fs = s.fs ∧
    s2.graph.legacy_init_ops = s.graph.legacy_init_ops ∧
    s2.graph.train_ops = s.graph.train_ops ∧
    s2.graph.asset_files = s.graph.asset_files ∧
    (∀ e, r = .error e → e = Err.InvalidOpReference ∧ s2 = s) ∧
    (∀ op, o = some op → r = .ok () →
      s2.graph.main_ops = s.graph.main_ops ++ [op]) ∧
    (o = none → s2 = s) := by
  cases o with
  | none =>
      simp only [add_main_op] at h
      injection h with h1 h2
      subst h1; subst h2
      refine ⟨rfl, rfl, rfl, rfl, rfl, ?_, ?_, ?_⟩
      · intro e he; injection he
      · intro op hop; injection hop
      · intro _; rfl
  | some op =>
      simp only [add_main_op] at h
      by_cases hk : op.kind ≠ OpKind.operation
      · rw [if_pos hk] at h
        injection h with h1 h2
        subst h1; subst h2
        refine ⟨rfl, rfl, rfl, rfl, rfl, ?_, ?_, ?_⟩
        · intro e he
          injection he with he2
          exact ⟨he2.symm, rfl⟩
        · intro op2 hop hr; injection hr
        · intro hn; injection hn
      · rw [if_neg hk] at h
        injection h with h1 h2
        subst h1; subst h2
        refine ⟨rfl, rfl, rfl, rfl, rfl, ?_, ?_, ?_⟩
        · intro e he; injection he
        · intro op2 hop hr
          injection hop with hop2
          subst hop2
          rfl
        · intro hn; injection hn

theorem add_train_op_props (o : Option OpRef) (s : State)
    (r : Except Err Unit) (s2 : State)
    (h : add_train_op o s = (r, s2)) :
    s2.builder = s.builder ∧ s2.fs = s.fs ∧
    s2.graph.legacy_init_ops = s.graph.legacy_init_ops ∧
    s2.graph.main_ops = s.graph.main_ops ∧
    s2.graph.asset_files = s.graph.asset_files ∧
    (∀ e, r = .error e → e = Err.InvalidOpReference ∧ s2 = s) ∧
    (∀ op, o = some op → r = .ok () →
      s2.graph.train_ops = s.graph.train_ops ++ [op] ∧
      (op.kind = OpKind.tensor ∨ op.kind = OpKind.operation)) ∧
    (o = none → s2 = s) := by
  cases o with
  | none =>
      simp only [add_train_op] at h
      injection h with h1 h2
      subst h1; subst h2
      refine ⟨rfl, rfl, rfl, rfl, rfl, ?_, ?_, ?_⟩
      · intro e he; injection he
      · intro op hop; injection hop
      · intro _; rfl
  | some op =>
      simp only [add_train_op] at h
      by_cases hk : op.kind ≠ OpKind.tensor ∧ op.kind ≠ OpKind.operation
      · rw [if_pos hk] at h
        injection h with h1 h2
        subst h1; subst h2
        refine ⟨rfl, rfl, rfl, rfl, rfl, ?_, ?_, ?_⟩
        · intro e he
          injection he with he2
          exact ⟨he2.symm, rfl⟩
        · intro op2 hop hr; injection hr
        · intro hn; injection hn
      · rw [if_neg hk] at h
        injection h with h1 h2
        subst h1; subst h2
        refine ⟨rfl, rfl, rfl, rfl, rfl, ?_, ?_, ?_⟩
        · intro e he; injection he
        · intro op2 hop hr
          injection hop with hop2
          subst hop2
          refine ⟨rfl, ?_⟩
          by_cases h1 : op.kind = OpKind.tensor
          · exact Or.inl h1
          · by_cases h2 : op.kind = OpKind.operation
            · exact Or.inr h2
            · exact absurd ⟨h1, h2⟩ hk
        · intro hn; injection hn

theorem add_collections_props (a : Option (List PathTensor))
    (legacy main train : Option OpRef) (s : State)
    (r : Except Err Unit) (s2 : State)
    (h : add_collections a legacy main train s = (r, s2)) :
    s2.builder = s.builder ∧
    (∀ e, r = .error e → e = Err.InvalidAssetReference ∨
      e = Err.DuplicateLegacyInitOp ∨ e = Err.InvalidOpReference) ∧
    (train = none → s2.graph.train_ops = s.graph.train_ops) := by
  unfold add_collections at h
  split at h
  next e1 s1 heq =>
    obtain ⟨hb, hl, hm, ht, he⟩ := save_and_write_assets_frame a s _ s1 heq
    injection h with h1 h2
    subst h1; subst h2
    exact ⟨hb, fun e hee => by
        injection hee with he2; exact Or.inl (he2 ▸ he e1 rfl),
      fun _ => ht⟩
  next u1 s1 heq =>
    obtain ⟨hb, hl, hm, ht, he⟩ := save_and_write_assets_frame a s _ s1 heq
    split at h
    next e2 s22 heq2 =>
      injection h with h1 h2
      subst h1; subst h2
      have hop : (e2 = Err.InvalidOpReference ∨ e2 = Err.DuplicateLegacyInitOp) ∧
          s22 = s1 := by
        by_cases hmn : main.isNone
        · rw [if_pos hmn] at heq2
          obtain ⟨_, _, _, _, _, hhe, _, _⟩ :=
            maybe_add_legacy_init_op_props legacy s1 _ s22 heq2
          exact hhe e2 rfl
        · rw [if_neg hmn] at heq2
          obtain ⟨_, _, _, _, _, hhe, _, _⟩ := add_main_op_props main s1 _ s22 heq2
          obtain ⟨hh1, hh2⟩ := hhe e2 rfl
          exact ⟨Or.inl hh1, hh2⟩
      refine ⟨by rw [hop.2]; exact hb, fun e hee => ?_, fun _ => by rw [hop.2]; exact ht⟩
      injection hee with he2
      subst he2
      rcases hop.1 with hh | hh
      · exact Or.inr (Or.inr hh)
      · exact Or.inr (Or.inl hh)
    next u2 s22 heq2 =>
      have hop : s22.builder = s1.builder ∧ s22.graph.train_ops = s1.graph.train_ops := by
        by_cases hmn : main.isNone
        · rw [if_pos hmn] at heq2
          obtain ⟨hb2, _, _, ht2, _, _, _, _⟩ :=
            maybe_add_legacy_init_op_props legacy s1 _ s22 heq2
          exact ⟨hb2, ht2⟩
        · rw [if_neg hmn] at heq2
          obtain ⟨hb2, _, _, ht2, _, _, _, _⟩ := add_main_op_props main s1 _ s22 heq2
          exact ⟨hb2, ht2⟩
      obtain ⟨hb3, _, _, hm3, _, hhe3, _, hnone3⟩ := add_train_op_props train s22 r s2 h
      refine ⟨by rw [hb3, hop.1]; exact hb, fun e hee => ?_, fun htr => ?_⟩
      · exact Or.inr (Or.inr (hhe3 e hee).1)
      · rw [hnone3 htr, hop.2]
        exact ht


theorem tag_and_add_meta_graph_graph (mgd : MetaGraphDef) (tags : List String)
    (sdm : Option (List (String × SignatureDef))) (s : State) :
    (tag_and_add_meta_graph mgd tags sdm s).graph = s.graph := rfl

theorem tag_and_add_meta_graph_fs (mgd : MetaGraphDef) (tags : List String)
    (sdm : Option (List (String × SignatureDef))) (s : State) :
    (tag_and_add_meta_graph mgd tags sdm s).fs = s.fs := rfl

/-! ### Claim theorems -/

/-- C1: the parameters-carrying add (`add_meta_graph_and_variables`) fails
with `AlreadySaved` when the builder has already saved variables, and the
variants-only add (`add_meta_graph`) fails with `VariablesNotSavedYet`
before any parameters-carrying add; in both cases the returned state is the
pre-call state, so the variant list, parameter store contents and asset
ledger are unchanged. -/
theorem c1_write_once_protocol (tags : List String)
    (sdm : Option (List (String × SignatureDef)))
    (assets : Option (List PathTensor)) (legacy : Option OpRef)
    (cd : Bool) (main : Option OpRef) (sda : Bool) (s : State) :
    (s.builder.has_saved_variables = true →
      add_meta_graph_and_variables tags sdm assets legacy cd main sda s =
        (.error .AlreadySaved, s)) ∧
    (s.builder.has_saved_variables = false →
      add_meta_graph tags sdm assets legacy cd main sda s =
        (.error .VariablesNotSavedYet, s)) := by
  constructor
  · intro hf
    unfold add_meta_graph_and_variables
    rw [if_pos hf]
  · intro hf
    unfold add_meta_graph
    rw [if_pos hf]

/-- Witness for C1 at concrete builders: the builder that has already
saved variables rejects a second parameters-carrying add, and a fresh
builder rejects a variants-only add. -/
theorem c1_write_once_protocol_witness :
    add_meta_graph_and_variables ["serve"] none none none false none false exState1 =
      (.error .AlreadySaved, exState1) ∧
    add_meta_graph ["serve"] none none none false none false exState =
      (.error .VariablesNotSavedYet, exState) :=
  ⟨(c1_write_once_protocol ["serve"] none none none false none false exState1).1
      (by decide),
   (c1_write_once_protocol ["serve"] none none none false none false exState).2
      (by decide)⟩

/-- C2: an add-variant call whose signature map contains a malformed
`TensorInfo` (absent, encoding oneof unset, or invalid dtype) fails with
`MalformedTensorInfo` and returns the pre-call state unchanged — no
variant appended, no bundle or filesystem mutation — for both entry
points (each behind its protocol gate). -/
theorem c2_malformed_tensor_info_atomic (tags : List String)
    (m : List (String × SignatureDef)) (assets : Option (List PathTensor))
    (legacy : Option OpRef) (cd : Bool) (main : Option OpRef) (sda : Bool)
    (s : State) (hbad : HasBadTensorInfo m) :
    (s.builder.has_saved_variables = true →
      add_meta_graph tags (some m) assets legacy cd main sda s =
        (.error .MalformedTensorInfo, s)) ∧
    (s.builder.has_saved_variables = false →
      add_meta_graph_and_variables tags (some m) assets legacy cd main sda s =
        (.error .MalformedTensorInfo, s)) := by
  have hv : validate_signature_def_map (some m) = .error .MalformedTensorInfo :=
    validateSigDefs_of_bad m hbad
  constructor
  · intro hf
    unfold add_meta_graph
    rw [if_neg (by simp [hf]), hv]
  · intro hf
    unfold add_meta_graph_and_variables
    rw [if_neg (by simp [hf]), hv]

/-- Witness for C2: a signature map whose only entry has an input
`TensorInfo` that is absent is rejected atomically by both entry points. -/
theorem c2_malformed_tensor_info_atomic_witness :
    add_meta_graph ["t"] (some exBadSigs) none none false none false exState1 =
      (.error .MalformedTensorInfo, exState1) ∧
    add_meta_graph_and_variables ["t"] (some exBadSigs) none none false none false
        exState = (.error .MalformedTensorInfo, exState) := by
  have hbad : HasBadTensorInfo exBadSigs := by
    refine ⟨("sig", ⟨[("x", none)], []⟩), by simp [exBadSigs], Or.inl ?_⟩
    exact ⟨("x", none), by simp, trivial⟩
  exact ⟨(c2_malformed_tensor_info_atomic ["t"] exBadSigs none none false none false
      exState1 hbad).1 (by decide),
    (c2_malformed_tensor_info_atomic ["t"] exBadSigs none none false none false
      exState hbad).2 (by decide)⟩

/-- C8: constructing a builder over an existing target path fails with
`DirectoryAlreadyExists` and leaves the filesystem untouched; over a fresh
path it creates the directory and yields an empty bundle with
`has_saved_variables = false`. -/
theorem c8_constructor_checks (export_dir : String) (g : Collections) (fs : FS) :
    (fsExists fs export_dir = true →
      builder_init export_dir g fs = (.error .DirectoryAlreadyExists, fs)) ∧
    (fsExists fs export_dir = false →
      builder_init export_dir g fs =
        (.ok { builder := { meta_graphs := []
                            schema_version := SAVED_MODEL_SCHEMA_VERSION
                            export_dir := export_dir
                            has_saved_variables := false }
               graph := g
               fs := fsCreateDir fs export_dir },
          fsCreateDir fs export_dir)) := by
  constructor
  · intro hf
    unfold builder_init
    rw [if_pos hf]
  · intro hf
    unfold builder_init
    rw [if_neg (by simp [hf])]

/-- Witness for C8: constructing over the already-created `/export`
directory fails without touching the filesystem; over the fresh `exFS` it
creates the directory and an empty bundle. -/
theorem c8_constructor_checks_witness :
    builder_init "/export" exGraph (fsCreateDir exFS "/export") =
      (.error .DirectoryAlreadyExists, fsCreateDir exFS "/export") ∧
    builder_init "/export" exGraph exFS =
      (.ok { builder := { meta_graphs := []
                          schema_version := SAVED_MODEL_SCHEMA_VERSION
                          export_dir := "/export"
                          has_saved_variables := false }
             graph := exGraph
             fs := fsCreateDir exFS "/export" },
        fsCreateDir exFS "/export") :=
  ⟨(c8_constructor_checks "/export" exGraph (fsCreateDir exFS "/export")).1 (by decide),
   (c8_constructor_checks "/export" exGraph exFS).2 (by decide)⟩

/-- C10: for every finite asset filename map and candidate basename, the
fuelled suffix search of `_get_unique_asset_filename` returns a key that
is not present in the map (so the source's unbounded loop terminates after
finitely many steps with an unused key). -/
theorem c10_unique_filename_fresh (asset_filename : String)
    (m : List (String × String)) :
    mapContains m (get_unique_asset_filename asset_filename m) = false :=
  get_unique_asset_filename_fresh asset_filename m



/-- C3: per-asset registration: an unseen basename is accepted as-is; a
seen basename with a textually identical recorded path, or with a
different path but byte-identical contents, is reused; a seen basename
with different contents gets a fresh `_1`, `_2`, … suffixed name not in
the map (every earlier suffix being taken); and every processed asset of
a call has its own `(basename, tensor)` reference appended to the assets
collection, one per use site, in order. -/
theorem c3_asset_registration_dedup (fs : FS) (p : String)
    (m : List (String × String)) :
    (lookupA m (basename p) = none →
      get_asset_filename_to_add fs p m = basename p) ∧
    (∀ q, lookupA m (basename p) = some q → q = p →
      get_asset_filename_to_add fs p m = basename p) ∧
    (∀ q, lookupA m (basename p) = some q → q ≠ p → filecmp fs p q = true →
      get_asset_filename_to_add fs p m = basename p) ∧
    (∀ q, lookupA m (basename p) = some q → q ≠ p → filecmp fs p q = false →
      mapContains m (get_asset_filename_to_add fs p m) = false ∧
      ∃ i, 1 ≤ i ∧
        get_asset_filename_to_add fs p m = basename p ++ "_" ++ Nat.repr i ∧
        ∀ l, 1 ≤ l → l < i →
          mapContains m (basename p ++ "_" ++ Nat.repr l) = true) ∧
    (∀ (ts : List PathTensor) (s : State) (m2 : List (String × String)) (s2 : State),
      saveAssetsLoop ts [] s = (.ok m2, s2) →
      ∃ news, s2.graph.asset_files = s.graph.asset_files ++ news ∧
        news.map Prod.snd = ts.map PathTensor.name) := by
  refine ⟨?_, ?_, ?_, ?_, ?_⟩
  · intro hn
    simp only [get_asset_filename_to_add, hn]
  · intro q hq hqp
    simp only [get_asset_filename_to_add, hq]
    rw [if_pos hqp]
  · intro q hq hqp hfc
    simp only [get_asset_filename_to_add, hq]
    rw [if_neg hqp, if_neg (by simp [hfc])]
  · intro q hq hqp hfc
    have hng : get_asset_filename_to_add fs p m =
        get_unique_asset_filename (basename p) m := by
      simp only [get_asset_filename_to_add, hq]
      rw [if_neg hqp, if_pos hfc]
    rw [hng]
    refine ⟨get_unique_asset_filename_fresh (basename p) m, ?_⟩
    obtain ⟨k, hk2, hk3⟩ := get_unique_asset_filename_shape (basename p) m
    have hbase : mapContains m (basename p) = true := by
      simp [mapContains, hq]
    cases k with
    | zero =>
        exfalso
        have hfr := get_unique_asset_filename_fresh (basename p) m
        rw [hk2] at hfr
        have : cand (basename p) 0 = basename p := rfl
        rw [this, hbase] at hfr
        cases hfr
    | succ j =>
        refine ⟨j + 1, by omega, hk2, ?_⟩
        intro l hl1 hl2
        have := hk3 l hl2
        cases l with
        | zero => omega
        | succ l0 => exact this
  · intro ts s m2 s2 h
    exact saveAssetsLoop_records ts [] s m2 s2 h

/-- Witness for C3: the four routing cases of
`_get_asset_filename_to_add` at concrete files (`/x/a` and `/z/a` share
contents, `/y/a` differs) and the per-use-site recording for a two-asset
call. -/
theorem c3_asset_registration_dedup_witness :
    get_asset_filename_to_add exFS "/x/a" [] = basename "/x/a" ∧
    get_asset_filename_to_add exFS "/x/a" [("a", "/x/a")] = basename "/x/a" ∧
    get_asset_filename_to_add exFS "/z/a" [("a", "/x/a")] = basename "/z/a" ∧
    (mapContains [("a", "/x/a")]
        (get_asset_filename_to_add exFS "/y/a" [("a", "/x/a")]) = false ∧
      ∃ i, 1 ≤ i ∧
        get_asset_filename_to_add exFS "/y/a" [("a", "/x/a")] =
          basename "/y/a" ++ "_" ++ Nat.repr i ∧
        ∀ l, 1 ≤ l → l < i →
          mapContains [("a", "/x/a")]
            (basename "/y/a" ++ "_" ++ Nat.repr l) = true) ∧
    (∃ news,
      ((saveAssetsLoop [exTensorX, exTensorY] [] exState).2).graph.asset_files =
        exState.graph.asset_files ++ news ∧
      news.map Prod.snd = [exTensorX, exTensorY].map PathTensor.name) :=
  ⟨(c3_asset_registration_dedup exFS "/x/a" []).1 (by decide),
   (c3_asset_registration_dedup exFS "/x/a" [("a", "/x/a")]).2.1 "/x/a"
     (by decide) rfl,
   (c3_asset_registration_dedup exFS "/z/a" [("a", "/x/a")]).2.2.1 "/x/a"
     (by decide) (by decide) (by decide),
   (c3_asset_registration_dedup exFS "/y/a" [("a", "/x/a")]).2.2.2.1 "/x/a"
     (by decide) (by decide) (by decide),
   (c3_asset_registration_dedup exFS "/y/a" [("a", "/x/a")]).2.2.2.2
     [exTensorX, exTensorY] exState [("a", "/x/a"), ("a_1", "/y/a")]
     ((saveAssetsLoop [exTensorX, exTensorY] [] exState).2) rfl⟩



/-- C4 counterexample: the asset filename map does not persist across
add-variant calls.  The first (parameters-carrying) add on `exState`
records `a ↦ /x/a`; the very next variants-only registration on the same
builder instance starts from an empty map, so `/y/a` (same basename,
different contents) is accepted as plain `a ↦ /y/a` — the earlier entry
is gone, where a persistent ledger would have deduplicated to `a_1`. -/
theorem c4_counterexample :
    (maybe_save_assets (some [exTensorX]) exState).1 = .ok [("a", "/x/a")] ∧
    exState1.builder.has_saved_variables = true ∧
    (maybe_save_assets (some [exTensorY]) exState1).1 = .ok [("a", "/y/a")] ∧
    lookupA [("a", "/y/a")] "a" ≠ some "/x/a" :=
  ⟨rfl, rfl, rfl, by decide⟩

/-- C4 amended: the asset filename map is local to one add-variant call —
created empty at the start of each call — and within that call it grows
monotonically across registrations and never shrinks: every key present
earlier in the call is still present after the remaining registrations. -/
theorem c4_per_call_map_monotone (ts : List PathTensor)
    (m : List (String × String)) (s : State)
    (m2 : List (String × String)) (s2 : State)
    (h : saveAssetsLoop ts m s = (.ok m2, s2)) :
    ∀ k, mapContains m k = true → mapContains m2 k = true :=
  saveAssetsLoop_mono ts m s m2 s2 h

/-- Witness for the amended C4: the key `a` recorded earlier in a call is
still a key after a further registration that dedupes to `a_1`. -/
theorem c4_per_call_map_monotone_witness :
    mapContains [("a", "/x/a"), ("a_1", "/y/a")] "a" = true :=
  c4_per_call_map_monotone [exTensorY] [("a", "/x/a")] exState
    [("a", "/x/a"), ("a_1", "/y/a")]
    ((saveAssetsLoop [exTensorY] [("a", "/x/a")] exState).2) rfl "a" (by decide)

/-- C5 counterexample: first-writer-wins fails.  Registering `/x/a` and
then `/z/a` (same basename, different path, byte-identical contents) in
one call leaves the map at `a ↦ /z/a`: the tie from duplicate content
overwrote the recorded path with the later one. -/
theorem c5_counterexample :
    (saveAssetsLoop [exTensorX] [] exState).1 = .ok [("a", "/x/a")] ∧
    (saveAssetsLoop [exTensorX, exTensorZ] [] exState).1 = .ok [("a", "/z/a")] ∧
    ("/z/a" : String) ≠ "/x/a" :=
  ⟨rfl, rfl, by decide⟩

/-- C5 amended: one registration step is last-writer-wins, but an
overwrite can only replace the recorded path of a reused basename with the
identical path or with a path whose file contents compare byte-identical;
every other existing entry is untouched (and no key is ever removed). -/
theorem c5_last_writer_equal_content (fs : FS) (p : String)
    (m : List (String × String)) (k v : String)
    (hk : lookupA m k = some v) :
    lookupA (mapSet m (get_asset_filename_to_add fs p m) p) k = some v ∨
    (k = get_asset_filename_to_add fs p m ∧
      lookupA (mapSet m (get_asset_filename_to_add fs p m) p) k = some p ∧
      (v = p ∨ filecmp fs p v = true)) := by
  by_cases hkf : k = get_asset_filename_to_add fs p m
  · right
    refine ⟨hkf, by rw [hkf]; exact lookupA_mapSet_self m _ p, ?_⟩
    cases hb : lookupA m (basename p) with
    | none =>
        exfalso
        have hf : get_asset_filename_to_add fs p m = basename p := by
          simp only [get_asset_filename_to_add, hb]
        rw [hf] at hkf
        rw [hkf, hb] at hk
        cases hk
    | some q =>
        by_cases hqp : q = p
        · have hf : get_asset_filename_to_add fs p m = basename p := by
            simp only [get_asset_filename_to_add, hb]
            rw [if_pos hqp]
          rw [hf] at hkf
          rw [hkf, hb] at hk
          injection hk with hk2
          exact Or.inl (by rw [← hk2, hqp])
        · by_cases hfc : filecmp fs p q = false
          · exfalso
            have hf : get_asset_filename_to_add fs p m =
                get_unique_asset_filename (basename p) m := by
              simp only [get_asset_filename_to_add, hb]
              rw [if_neg hqp, if_pos hfc]
            have hfr := get_unique_asset_filename_fresh (basename p) m
            rw [← hf, ← hkf] at hfr
            rw [mapContains, hk] at hfr
            cases hfr
          · have hf : get_asset_filename_to_add fs p m = basename p := by
              simp only [get_asset_filename_to_add, hb]
              rw [if_neg hqp, if_neg (by simpa using hfc)]
            rw [hf] at hkf
            rw [hkf, hb] at hk
            injection hk with hk2
            refine Or.inr ?_
            rw [← hk2]
            cases hfc2 : filecmp fs p q with
            | false => exact absurd hfc2 hfc
            | true => rfl
  · left
    rw [lookupA_mapSet_ne m _ k p hkf]
    exact hk

/-- Witness for the amended C5: re-registering basename `a` from the
equal-content path `/z/a` overwrites the recorded path, and the overwrite
is content-preserving. -/
theorem c5_last_writer_equal_content_witness :
    lookupA (mapSet [("a", "/x/a")]
        (get_asset_filename_to_add exFS "/z/a" [("a", "/x/a")]) "/z/a") "a" =
      some "/x/a" ∨
    ("a" = get_asset_filename_to_add exFS "/z/a" [("a", "/x/a")] ∧
      lookupA (mapSet [("a", "/x/a")]
          (get_asset_filename_to_add exFS "/z/a" [("a", "/x/a")]) "/z/a") "a" =
        some "/z/a" ∧
      (("/x/a" : String) = "/z/a" ∨ filecmp exFS "/z/a" "/x/a" = true)) :=
  c5_last_writer_equal_content exFS "/z/a" [("a", "/x/a")] "a" "/x/a" (by decide)



/-- C6 counterexample: a `DuplicateLegacyInitOp` failure is not
mutation-free.  On a builder whose graph already has a legacy init op,
an add call carrying an asset and a new legacy init op fails with
`DuplicateLegacyInitOp`, yet the asset reference has already been recorded
in the collection and the asset file has already been copied to disk. -/
theorem c6_counterexample :
    (add_meta_graph ["t"] none (some [exTensorX])
        (some ⟨OpKind.operation, "new-init"⟩) false none false exStateL).1 =
      .error .DuplicateLegacyInitOp ∧
    (add_meta_graph ["t"] none (some [exTensorX])
        (some ⟨OpKind.operation, "new-init"⟩) false none false
        exStateL).2.graph.asset_files = [("a", "tensor-x")] ∧
    exStateL.graph.asset_files = [] ∧
    lookupA ((add_meta_graph ["t"] none (some [exTensorX])
        (some ⟨OpKind.operation, "new-init"⟩) false none false
        exStateL).2.fs.files) "/export/assets/a" = some "hello" ∧
    lookupA exStateL.fs.files "/export/assets/a" = none :=
  ⟨rfl, rfl, rfl, rfl, rfl⟩

/-- C6 amended: failures raised before the collection phase — the
protocol-sequencing errors and `MalformedTensorInfo` — leave the state
unchanged; only asset-resolution and op-attachment failures
(`InvalidAssetReference`, `DuplicateLegacyInitOp`, `InvalidOpReference`)
can leave partial mutations of collection or filesystem state behind. -/
theorem c6_pre_mutation_failures (tags : List String)
    (sdm : Option (List (String × SignatureDef)))
    (assets : Option (List PathTensor)) (legacy : Option OpRef)
    (cd : Bool) (main : Option OpRef) (sda : Bool) (s : State)
    (e : Err) (s2 : State) :
    (add_meta_graph tags sdm assets legacy cd main sda s = (.error e, s2) →
      e ≠ Err.InvalidAssetReference → e ≠ Err.DuplicateLegacyInitOp →
      e ≠ Err.InvalidOpReference → s2 = s) ∧
    (add_meta_graph_and_variables tags sdm assets legacy cd main sda s =
        (.error e, s2) →
      e ≠ Err.InvalidAssetReference → e ≠ Err.DuplicateLegacyInitOp →
      e ≠ Err.InvalidOpReference → s2 = s) := by
  constructor
  · intro h h1 h2 h3
    unfold add_meta_graph at h
    by_cases hf : s.builder.has_saved_variables = false
    · rw [if_pos hf] at h
      injection h with h4 h5
      exact h5.symm
    · rw [if_neg hf] at h
      split at h
      next e1 heq =>
        injection h with h4 h5
        exact h5.symm
      next u heq =>
        split at h
        next e2 s1 heq2 =>
          injection h with h4 h5
          injection h4 with h4
          subst h4
          subst h5
          obtain ⟨_, hcls, _⟩ := add_collections_props assets legacy main none s _ s1 heq2
          rcases hcls _ rfl with hh | hh | hh
          · exact absurd hh h1
          · exact absurd hh h2
          · exact absurd hh h3
        next u2 s1 heq2 =>
          injection h with h4 h5
          injection h4
  · intro h h1 h2 h3
    unfold add_meta_graph_and_variables at h
    by_cases hf : s.builder.has_saved_variables = true
    · rw [if_pos hf] at h
      injection h with h4 h5
      exact h5.symm
    · rw [if_neg hf] at h
      split at h
      next e1 heq =>
        injection h with h4 h5
        exact h5.symm
      next u heq =>
        split at h
        next e2 s1 heq2 =>
          injection h with h4 h5
          injection h4 with h4
          subst h4
          subst h5
          obtain ⟨_, hcls, _⟩ := add_collections_props assets legacy main none s _ s1 heq2
          rcases hcls _ rfl with hh | hh | hh
          · exact absurd hh h1
          · exact absurd hh h2
          · exact absurd hh h3
        next u2 s1 heq2 =>
          injection h with h4 h5
          injection h4

/-- Witness for the amended C6: a `MalformedTensorInfo` failure (behind
the protocol gate) really leaves the concrete state unchanged. -/
theorem c6_pre_mutation_failures_witness :
    (add_meta_graph ["t"] (some exBadSigs) (some [exTensorX]) none false none
        false exState1).2 = exState1 :=
  (c6_pre_mutation_failures ["t"] (some exBadSigs) (some [exTensorX]) none false
      none false exState1 Err.MalformedTensorInfo
      (add_meta_graph ["t"] (some exBadSigs) (some [exTensorX]) none false none
        false exState1).2).1
    rfl (by decide) (by decide) (by decide)

/-- C7: when a main op is supplied to the collection phase, the legacy
init op path is skipped entirely — the call can never fail with
`DuplicateLegacyInitOp`, the legacy collection is untouched, and on
success the main op is recorded; the legacy init op is recorded precisely
by the no-main-op path. -/
theorem c7_main_op_precedence :
    (∀ (assets : Option (List PathTensor)) (legacy train : Option OpRef)
        (s : State) (mo : OpRef) (r : Except Err Unit) (s2 : State),
      mo.kind = OpKind.operation →
      add_collections assets legacy (some mo) train s = (r, s2) →
      r ≠ .error Err.DuplicateLegacyInitOp ∧
      s2.graph.legacy_init_ops = s.graph.legacy_init_ops ∧
      (r = .ok () → s2.graph.main_ops = s.graph.main_ops ++ [mo])) ∧
    (∀ (assets : Option (List PathTensor)) (li : OpRef) (train : Option OpRef)
        (s : State) (r : Except Err Unit) (s2 : State),
      add_collections assets (some li) none train s = (r, s2) →
      r = .ok () →
      s2.graph.legacy_init_ops = s.graph.legacy_init_ops ++ [li] ∧
      s2.graph.main_ops = s.graph.main_ops) := by
  constructor
  · intro assets legacy train s mo r s2 hk h
    unfold add_collections at h
    split at h
    next e1 s1 heq =>
      obtain ⟨hb, hl, hm, ht, he⟩ := save_and_write_assets_frame assets s _ s1 heq
      injection h with h4 h5
      subst h4
      subst h5
      refine ⟨?_, hl, ?_⟩
      · intro hc
        injection hc with hc2
        have hiar := he e1 rfl
        rw [hc2] at hiar
        exact Err.noConfusion hiar
      · intro hr
        injection hr
    next u1 s1 heq =>
      obtain ⟨hb, hl, hm, ht, he⟩ := save_and_write_assets_frame assets s _ s1 heq
      rw [if_neg (by simp)] at h
      split at h
      next e2 s22 heq2 =>
        obtain ⟨hb2, hf2, hl2, ht2, ha2, herr2, hok2, hnone2⟩ :=
          add_main_op_props (some mo) s1 _ s22 heq2
        injection h with h4 h5
        subst h4
        subst h5
        obtain ⟨he2, hs22⟩ := herr2 e2 rfl
        refine ⟨?_, ?_, ?_⟩
        · intro hc
          injection hc with hc2
          rw [hc2] at he2
          exact Err.noConfusion he2
        · rw [hl2]
          exact hl
        · intro hr
          injection hr
      next u2 s22 heq2 =>
        obtain ⟨hb2, hf2, hl2, ht2, ha2, herr2, hok2, hnone2⟩ :=
          add_main_op_props (some mo) s1 _ s22 heq2
        obtain ⟨hb3, hf3, hl3, hm3, ha3, herr3, hok3, hnone3⟩ :=
          add_train_op_props train s22 r s2 h
        refine ⟨?_, ?_, ?_⟩
        · intro hc
          have := (herr3 _ hc).1
          exact Err.noConfusion this
        · rw [hl3, hl2]
          exact hl
        · intro hr
          rw [hm3, hok2 mo rfl rfl, hm]
  · intro assets li train s r s2 h hr
    subst hr
    unfold add_collections at h
    split at h
    next e1 s1 heq =>
      injection h with h4 h5
      injection h4
    next u1 s1 heq =>
      obtain ⟨hb, hl, hm, ht, he⟩ := save_and_write_assets_frame assets s _ s1 heq
      rw [if_pos (by simp)] at h
      split at h
      next e2 s22 heq2 =>
        injection h with h4 h5
        injection h4
      next u2 s22 heq2 =>
        obtain ⟨hb2, hf2, hm2, ht2, ha2, herr2, hok2, hnone2⟩ :=
          maybe_add_legacy_init_op_props (some li) s1 _ s22 heq2
        obtain ⟨hb3, hf3, hl3, hm3, ha3, herr3, hok3, hnone3⟩ :=
          add_train_op_props train s22 _ s2 h
        constructor
        · rw [hl3, hok2 li rfl rfl, hl]
        · rw [hm3, hm2, hm]

/-- Witness for C7: with both a legacy init op and a main op supplied on a
graph that already holds a legacy init op, the call succeeds, records the
main op, never raises `DuplicateLegacyInitOp` and leaves the legacy
collection unchanged; with no main op, the legacy init op is recorded. -/
theorem c7_main_op_precedence_witness :
    (add_collections none (some ⟨OpKind.operation, "li"⟩)
        (some ⟨OpKind.operation, "mo"⟩) none exStateL).1 ≠
      .error Err.DuplicateLegacyInitOp ∧
    (add_collections none (some ⟨OpKind.operation, "li"⟩)
        (some ⟨OpKind.operation, "mo"⟩) none exStateL).2.graph.legacy_init_ops =
      exStateL.graph.legacy_init_ops ∧
    (add_collections none (some ⟨OpKind.operation, "li"⟩)
        (some ⟨OpKind.operation, "mo"⟩) none exStateL).2.graph.main_ops =
      exStateL.graph.main_ops ++ [⟨OpKind.operation, "mo"⟩] ∧
    (add_collections none (some ⟨OpKind.operation, "li"⟩) none none
        exState).2.graph.legacy_init_ops =
      exState.graph.legacy_init_ops ++ [⟨OpKind.operation, "li"⟩] := by
  obtain ⟨ha, hbq, hc⟩ := c7_main_op_precedence.1 none (some ⟨OpKind.operation, "li"⟩)
    none exStateL ⟨OpKind.operation, "mo"⟩ _ _ rfl rfl
  obtain ⟨hd, _⟩ := c7_main_op_precedence.2 none ⟨OpKind.operation, "li"⟩ none
    exState _ _ rfl rfl
  exact ⟨ha, hbq, hc rfl, hd⟩

/-- C9 counterexample: a successful parameters-carrying add records no
train op: the entry point exposes no train-op parameter and always passes
`None` to the collection phase, so the train-op collection stays empty. -/
theorem c9_counterexample :
    (add_meta_graph_and_variables ["serve"] none (some [exTensorX]) none false
        none false exState).1 = .ok () ∧
    exState.graph.train_ops = [] ∧
    exState1.graph.train_ops = [] :=
  ⟨rfl, rfl, rfl⟩

/-- C9 amended: neither add entry point ever modifies the train-op
collection (both invoke the collection phase with train op `None`); the
`_add_train_op` helper itself does record a supplied train op
unconditionally when it is a tensor or an operation. -/
theorem c9_no_train_op_in_add_paths :
    (∀ (tags : List String) (sdm : Option (List (String × SignatureDef)))
        (assets : Option (List PathTensor)) (legacy : Option OpRef) (cd : Bool)
        (main : Option OpRef) (sda : Bool) (s : State) (r : Except Err Unit)
        (s2 : State),
      add_meta_graph tags sdm assets legacy cd main sda s = (r, s2) →
      s2.graph.train_ops = s.graph.train_ops) ∧
    (∀ (tags : List String) (sdm : Option (List (String × SignatureDef)))
        (assets : Option (List PathTensor)) (legacy : Option OpRef) (cd : Bool)
        (main : Option OpRef) (sda : Bool) (s : State) (r : Except Err Unit)
        (s2 : State),
      add_meta_graph_and_variables tags sdm assets legacy cd main sda s = (r, s2) →
      s2.graph.train_ops = s.graph.train_ops) ∧
    (∀ (op : OpRef) (s : State),
      op.kind = OpKind.tensor ∨ op.kind = OpKind.operation →
      add_train_op (some op) s =
        (.ok (), { s with graph :=
          { s.graph with train_ops := s.graph.train_ops ++ [op] } })) := by
  refine ⟨?_, ?_, ?_⟩
  · intro tags sdm assets legacy cd main sda s r s2 h
    unfold add_meta_graph at h
    by_cases hf : s.builder.has_saved_variables = false
    · rw [if_pos hf] at h
      injection h with h4 h5
      rw [← h5]
    · rw [if_neg hf] at h
      split at h
      next e1 heq =>
        injection h with h4 h5
        rw [← h5]
      next u heq =>
        split at h
        next e2 s1 heq2 =>
          injection h with h4 h5
          obtain ⟨_, _, htr⟩ := add_collections_props assets legacy main none s _ s1 heq2
          rw [← h5]
          exact htr rfl
        next u2 s1 heq2 =>
          injection h with h4 h5
          obtain ⟨_, _, htr⟩ := add_collections_props assets legacy main none s _ s1 heq2
          rw [← h5, tag_and_add_meta_graph_graph]
          exact htr rfl
  · intro tags sdm assets legacy cd main sda s r s2 h
    unfold add_meta_graph_and_variables at h
    by_cases hf : s.builder.has_saved_variables = true
    · rw [if_pos hf] at h
      injection h with h4 h5
      rw [← h5]
    · rw [if_neg hf] at h
      split at h
      next e1 heq =>
        injection h with h4 h5
        rw [← h5]
      next u heq =>
        split at h
        next e2 s1 heq2 =>
          injection h with h4 h5
          obtain ⟨_, _, htr⟩ := add_collections_props assets legacy main none s _ s1 heq2
          rw [← h5]
          exact htr rfl
        next u2 s1 heq2 =>
          injection h with h4 h5
          obtain ⟨_, _, htr⟩ := add_collections_props assets legacy main none s _ s1 heq2
          rw [← h5, tag_and_add_meta_graph_graph]
          split
          · exact htr rfl
          · exact htr rfl
  · intro op s hkind
    have hcond : ¬(op.kind ≠ OpKind.tensor ∧ op.kind ≠ OpKind.operation) := by
      intro hc
      rcases hkind with h | h
      · exact hc.1 h
      · exact hc.2 h
    simp only [add_train_op]
    rw [if_neg hcond]

/-- Witness for the amended C9: the concrete parameters-carrying add left
the train-op collection unchanged, and `_add_train_op` does record a
concrete operation when invoked directly. -/
theorem c9_no_train_op_in_add_paths_witness :
    exState1.graph.train_ops = exState.graph.train_ops ∧
    add_train_op (some ⟨OpKind.operation, "train-op"⟩) exState =
      (.ok (), { exState with graph := { exState.graph with
          train_ops := exState.graph.train_ops ++ [⟨OpKind.operation, "train-op"⟩] } }) :=
  ⟨c9_no_train_op_in_add_paths.2.1 ["serve"] none (some [exTensorX]) none false
      none false exState _ exState1 rfl,
   c9_no_train_op_in_add_paths.2.2 ⟨OpKind.operation, "train-op"⟩ exState (Or.inr rfl)⟩


end SMB
